import Mathlib

set_option maxHeartbeats 1000000

/-!
Verification development for the claude-explorer repository: a shallow
embedding of the load-index-serve pipeline of `server.py` and of the chunk
partitioner of `split_json.py`, with theorems settling the frozen claims.

Modelling conventions:
- JSON documents are values of the `Json` inductive below.  Numbers are
  modelled as integers (the archives' numeric fields are integers; no claim
  exercises floats, and the parser rejects float syntax rather than
  misreading it).
- Python strings are Lean `String`s; Python string indices/slices are
  character based, as are Lean's `List Char` operations used here.
- Fallible Python code (statements that can raise) is modelled with
  `Option`: `none` is an uncaught exception at that point.
-/

namespace Explorer

/-- JSON values as produced by Python's `json.loads`.  Objects are
insertion-ordered key/value lists with unique keys, mirroring Python dicts. -/
inductive Json where
  | null : Json
  | bool (b : Bool) : Json
  | num (n : Int) : Json
  | str (s : String) : Json
  | arr (xs : List Json) : Json
  | obj (kvs : List (String × Json)) : Json

/-- Hashable JSON values: the values Python accepts as dict keys.
`conversations_cache[conv['uuid']] = conv` raises `TypeError` when the
`uuid` value is a list or dict, so keys are drawn from this flat type. -/
inductive JKey where
  | null : JKey
  | bool (b : Bool) : JKey
  | num (n : Int) : JKey
  | str (s : String) : JKey
deriving DecidableEq

/-- The hashable view of a JSON value, `none` for unhashable (list/dict). -/
def toKey : Json → Option JKey
  | .null => some .null
  | .bool b => some (.bool b)
  | .num n => some (.num n)
  | .str s => some (.str s)
  | .arr _ => none
  | .obj _ => none

/-- Whitespace accepted by Python's `json` module: space, tab, LF, CR only. -/
def jsonWsChar (c : Char) : Bool :=
  c = ' ' || c = '\t' || c = '\n' || c = '\r'

/-- Whitespace stripped by Python's `str.strip()`: exactly the characters
`str.isspace()` accepts: the controls `\t\n\v\f\r` (code points 9 to 13),
the file/group/record/unit separators and the space (28 to 32), NEL (133),
no-break space (160), Ogham space mark (5760), the typographic spaces
(8192 to 8202), the line and paragraph separators (8232 and 8233), narrow
no-break space (8239), medium mathematical space (8287), and ideographic
space (12288).  Most of these the JSON grammar does *not* treat as
whitespace. -/
def pySpaceChar (c : Char) : Bool :=
  (9 ≤ c.toNat && c.toNat ≤ 13)
    || (28 ≤ c.toNat && c.toNat ≤ 32)
    || c.toNat = 133 || c.toNat = 160 || c.toNat = 5760
    || (8192 ≤ c.toNat && c.toNat ≤ 8202)
    || c.toNat = 8232 || c.toNat = 8233 || c.toNat = 8239 || c.toNat = 8287
    || c.toNat = 12288

def skipWsL (cs : List Char) : List Char := cs.dropWhile jsonWsChar

/-- Python `content.strip()`. -/
def pyStrip (s : String) : String :=
  String.mk (((s.data.dropWhile pySpaceChar).reverse.dropWhile pySpaceChar).reverse)

/-- Python `s.startswith(pre)`. -/
def strStartsWith (s pre : String) : Bool := pre.data.isPrefixOf s.data

/-- Python `s.rfind(sub)`: the greatest character index at which `sub`
occurs in `s`, `none` standing for Python's `-1`. -/
def strRfind (s sub : String) : Option Nat :=
  (List.range (s.data.length + 1)).reverse.find? (fun i => sub.data.isPrefixOf (s.data.drop i))

/-- Python `s[:n]`. -/
def strTake (s : String) (n : Nat) : String := String.mk (s.data.take n)

/-- Python `needle in hay` on strings: substring containment. -/
def strContainsSub (hay needle : String) : Bool :=
  (List.range (hay.data.length + 1)).any (fun i => needle.data.isPrefixOf (hay.data.drop i))

/-- Python `s.lower()` (ASCII model). -/
def lowerStr (s : String) : String := String.mk (s.data.map Char.toLower)

/-- One hex digit, for `\uXXXX` string escapes. -/
def parseHexDigit (c : Char) : Option Nat :=
  if '0' ≤ c ∧ c ≤ '9' then some (c.toNat - 48)
  else if 'a' ≤ c ∧ c ≤ 'f' then some (c.toNat - 87)
  else if 'A' ≤ c ∧ c ≤ 'F' then some (c.toNat - 55)
  else none

/-- Body of a JSON string after the opening quote: returns the decoded
characters and the input remaining after the closing quote.  As in Python's
strict mode, an unescaped control character is an error. -/
def parseStringBody : List Char → Option (List Char × List Char)
  | [] => none
  | '"' :: rest => some ([], rest)
  | '\\' :: 'u' :: h1 :: h2 :: h3 :: h4 :: rest => do
    let a ← parseHexDigit h1
    let b ← parseHexDigit h2
    let c ← parseHexDigit h3
    let d ← parseHexDigit h4
    let (s, r) ← parseStringBody rest
    some (Char.ofNat (((a * 16 + b) * 16 + c) * 16 + d) :: s, r)
  | '\\' :: e :: rest => do
    let c ← (match e with
      | '"' => some '"'
      | '\\' => some '\\'
      | '/' => some '/'
      | 'b' => some (Char.ofNat 8)
      | 'f' => some (Char.ofNat 12)
      | 'n' => some '\n'
      | 'r' => some '\r'
      | 't' => some '\t'
      | _ => none)
    let (s, r) ← parseStringBody rest
    some (c :: s, r)
  | '\\' :: [] => none
  | c :: rest =>
    if c.toNat < 32 then none
    else do
      let (s, r) ← parseStringBody rest
      some (c :: s, r)

def digitChar (c : Char) : Bool := '0' ≤ c && c ≤ '9'

def digitsToNat (ds : List Char) : Nat :=
  ds.foldl (fun n c => n * 10 + (c.toNat - 48)) 0

/-- A JSON integer literal (digits after an optional sign): rejects empty
digit runs, leading zeros ("01"), and float syntax ('.', 'e', 'E'), which
Python would parse as a float; floats are outside this model. -/
def parseNatNum (cs : List Char) : Option (Nat × List Char) :=
  let ds := cs.takeWhile digitChar
  let rest := cs.dropWhile digitChar
  if ds.isEmpty then none
  else if ds.length > 1 && ds.headD '0' = '0' then none
  else match rest with
    | '.' :: _ => none
    | 'e' :: _ => none
    | 'E' :: _ => none
    | _ => some (digitsToNat ds, rest)

/-- Python dict insertion: replace the value at an existing key in place,
otherwise append the new binding. -/
def insertStrKV : List (String × Json) → String → Json → List (String × Json)
  | [], k, v => [(k, v)]
  | (k', v') :: t, k, v => if k' = k then (k, v) :: t else (k', v') :: insertStrKV t k v

/-- Python dict lookup (keys are unique, so first match is the match). -/
def lookupField : List (String × Json) → String → Option Json
  | [], _ => none
  | (k, v) :: t, key => if k = key then some v else lookupField t key

/-- Fold raw parsed members into a dict: duplicate keys keep the last value,
as `json.loads` does. -/
def dictify (pairs : List (String × Json)) : List (String × Json) :=
  pairs.foldl (fun acc p => insertStrKV acc p.1 p.2) []

mutual

/-- A JSON value (fuel-bounded recursive-descent parser). -/
def parseVal : Nat → List Char → Option (Json × List Char)
  | 0, _ => none
  | fuel + 1, cs =>
    match skipWsL cs with
    | '\x7b' :: rest => parseObjBody fuel rest
    | '[' :: rest => parseArrBody fuel rest
    | '"' :: rest => (parseStringBody rest).map (fun p => (Json.str (String.mk p.1), p.2))
    | 't' :: 'r' :: 'u' :: 'e' :: rest => some (Json.bool true, rest)
    | 'f' :: 'a' :: 'l' :: 's' :: 'e' :: rest => some (Json.bool false, rest)
    | 'n' :: 'u' :: 'l' :: 'l' :: rest => some (Json.null, rest)
    | '-' :: rest => (parseNatNum rest).map (fun p => (Json.num (-(p.1 : Int)), p.2))
    | other => (parseNatNum other).map (fun p => (Json.num (p.1 : Int), p.2))

/-- Array items after `[`. -/
def parseArrBody : Nat → List Char → Option (Json × List Char)
  | 0, _ => none
  | fuel + 1, cs =>
    match skipWsL cs with
    | ']' :: rest => some (Json.arr [], rest)
    | other => do
      let (x, r) ← parseVal fuel other
      let (xs, r2) ← parseArrRest fuel r
      some (Json.arr (x :: xs), r2)

/-- `, item ... ]` after one array item. -/
def parseArrRest : Nat → List Char → Option (List Json × List Char)
  | 0, _ => none
  | fuel + 1, cs =>
    match skipWsL cs with
    | ']' :: rest => some ([], rest)
    | ',' :: rest => do
      let (x, r) ← parseVal fuel rest
      let (xs, r2) ← parseArrRest fuel r
      some (x :: xs, r2)
    | _ => none

/-- Object members after the opening brace. -/
def parseObjBody : Nat → List Char → Option (Json × List Char)
  | 0, _ => none
  | fuel + 1, cs =>
    match skipWsL cs with
    | '\x7d' :: rest => some (Json.obj [], rest)
    | '"' :: rest => do
      let (k, r) ← parseStringBody rest
      let (v, r2) ← parseMemberVal fuel r
      let (kvs, r3) ← parseObjRest fuel r2
      some (Json.obj (dictify ((String.mk k, v) :: kvs)), r3)
    | _ => none

/-- `: value` after a member key. -/
def parseMemberVal : Nat → List Char → Option (Json × List Char)
  | 0, _ => none
  | fuel + 1, cs =>
    match skipWsL cs with
    | ':' :: rest => parseVal fuel rest
    | _ => none

/-- Closing brace, or `, "key": value ...` after one member. -/
def parseObjRest : Nat → List Char → Option (List (String × Json) × List Char)
  | 0, _ => none
  | fuel + 1, cs =>
    match skipWsL cs with
    | '\x7d' :: rest => some ([], rest)
    | ',' :: rest =>
      match skipWsL rest with
      | '"' :: r => do
        let (k, r2) ← parseStringBody r
        let (v, r3) ← parseMemberVal fuel r2
        let (kvs, r4) ← parseObjRest fuel r3
        some ((String.mk k, v) :: kvs, r4)
      | _ => none
    | _ => none

end

/-- Python `json.loads`: one document, with only trailing JSON whitespace
allowed after it.  The fuel `2 * length + 4` exceeds the number of parsing
steps any input of this length can need, since every step consumes input. -/
def parseJson (s : String) : Option Json :=
  match parseVal (2 * s.data.length + 4) s.data with
  | some (j, rest) => if (skipWsL rest).isEmpty then some j else none
  | none => none

/-- `server.py::load_conversations`, the per-file part: parse one file's text
into a flat list of records.  A parsed list is spliced in (`extend`), any
other parsed value appended as one record.  On parse failure the salvage
heuristic runs: only if the *stripped* content starts with `[`, cut at the
last `\x7d,` occurrence (when its index is positive), close the bracket and
re-parse; on any salvage failure the file contributes nothing.  A salvage
re-parse that succeeds always yields an array (the fixed text starts with
`[` and has no leading whitespace), so the non-array fallthrough is dead. -/
def serverParseFile (content : String) : List Json :=
  match parseJson content with
  | some (.arr xs) => xs
  | some j => [j]
  | none =>
    let c := pyStrip content
    if strStartsWith c "[" then
      match strRfind c "\x7d," with
      | some i =>
        if 0 < i then
          match parseJson (strTake c (i + 1) ++ "]") with
          | some (.arr xs) => xs
          | _ => []
        else []
      | none => []
    else []

/-- `split_json.py::split_conversations`, the per-file part.  Same structure,
separately written: the salvage cut index is computed on the *unstripped*
content, stripping is used only for the `startswith('[')` test, and a failing
salvage re-parse propagates to the outer handler — the file contributes
nothing either way. -/
def splitParseFile (content : String) : List Json :=
  match parseJson content with
  | some (.arr xs) => xs
  | some j => [j]
  | none =>
    match strRfind content "\x7d," with
    | some i =>
      if 0 < i ∧ strStartsWith (pyStrip content) "[" then
        match parseJson (strTake content (i + 1) ++ "]") with
        | some (.arr xs) => xs
        | _ => []
      else []
    | none => []

/-- The candidate source files in order: `some content` for a file that
exists, `none` for a missing one (skipped silently by both tools). -/
def serverLoadFiles (files : List (Option String)) : List Json :=
  (files.map (fun f => match f with | some c => serverParseFile c | none => [])).flatten

def splitLoadFiles (files : List (Option String)) : List Json :=
  (files.map (fun f => match f with | some c => splitParseFile c | none => [])).flatten

/-- The in-memory store: the uuid-keyed dict `conversations_cache`. -/
abbrev Store := List (JKey × Json)

/-- Python dict insertion over `Store`. -/
def insertKV : Store → JKey → Json → Store
  | [], k, v => [(k, v)]
  | (k', v') :: t, k, v => if k' = k then (k, v) :: t else (k', v') :: insertKV t k v

/-- Python dict lookup over `Store`. -/
def lookupKV : Store → JKey → Option Json
  | [], _ => none
  | (k, v) :: t, key => if k = key then some v else lookupKV t key

/-- One iteration of the index-building loop `if 'uuid' in conv:
conversations_cache[conv['uuid']] = conv`.  `none` is an uncaught
`TypeError`: Python's `in` is a substring test on a string record, a
membership test on a list record, and a `TypeError` on other non-dict
records; `conv['uuid']` then raises on any non-dict, and the dict
assignment raises when the uuid value is unhashable. -/
def buildIndexStep : Store → Json → Option Store
  | st, .obj kvs =>
    match lookupField kvs "uuid" with
    | some v =>
      match toKey v with
      | some k => some (insertKV st k (.obj kvs))
      | none => none
    | none => some st
  | st, .str s => if strContainsSub s "uuid" then none else some st
  | st, .arr xs =>
    if xs.any (fun x => match x with | .str s => s = "uuid" | _ => false) then none else some st
  | _, .null => none
  | _, .bool _ => none
  | _, .num _ => none

/-- The index-building loop over the loaded records. -/
def buildIndex : List Json → Store → Option Store
  | [], st => some st
  | r :: rs, st =>
    match buildIndexStep st r with
    | some st' => buildIndex rs st'
    | none => none

/-- `load_conversations()` as a function of the candidate files and the
current cache: returns the resulting cache paired with the number of files
opened and read by this call.  A truthy (nonempty) cache is returned as is
with no reads; otherwise all existing files are read and the index is built
into the empty cache. -/
def loadConversations (files : List (Option String)) (cache : Store) : Option (Store × Nat) :=
  if cache.isEmpty then
    (buildIndex (serverLoadFiles files) cache).map
      (fun st => (st, (files.filterMap id).length))
  else some (cache, 0)

/-- The record's `uuid` field, as on a Python dict; `none` on a non-dict. -/
def uuidOf (j : Json) : Option Json :=
  match j with
  | .obj kvs => lookupField kvs "uuid"
  | _ => none

/-- The record's uuid as a store key, when present and hashable. -/
def uuidKeyOf (j : Json) : Option JKey := (uuidOf j).bind toKey

/-- The last record in the list whose uuid is `u` — the "latest loaded
wins" specification the store is checked against. -/
def lastWith (u : JKey) : List Json → Option Json
  | [] => none
  | r :: rs =>
    match lastWith u rs with
    | some x => some x
    | none => if uuidKeyOf r = some u then some r else none

/-- Four lowercase hex digits, for `\uXXXX` output escapes. -/
def toHex4 (n : Nat) : List Char :=
  let d := fun (k : Nat) => if k < 10 then Char.ofNat (48 + k) else Char.ofNat (87 + k)
  [d (n / 4096 % 16), d (n / 256 % 16), d (n / 16 % 16), d (n % 16)]

/-- One character as `json.dumps` (default `ensure_ascii=True`) emits it. -/
def escapeJsonChar (c : Char) : List Char :=
  if c = '"' then ['\\', '"']
  else if c = '\\' then ['\\', '\\']
  else if c = '\n' then ['\\', 'n']
  else if c = '\r' then ['\\', 'r']
  else if c = '\t' then ['\\', 't']
  else if c.toNat = 8 then ['\\', 'b']
  else if c.toNat = 12 then ['\\', 'f']
  else if c.toNat < 32 ∨ 126 < c.toNat then
    if c.toNat ≤ 65535 then '\\' :: 'u' :: toHex4 c.toNat
    else
      '\\' :: 'u' :: toHex4 (55296 + (c.toNat - 65536) / 1024)
        ++ '\\' :: 'u' :: toHex4 (56320 + (c.toNat - 65536) % 1024)
  else [c]

/-- A JSON string literal as `json.dumps` emits it. -/
def dumpsStr (s : String) : String :=
  String.mk ('"' :: (s.data.map escapeJsonChar).flatten ++ ['"'])

mutual

/-- Python `json.dumps(v)` with its default separators `(', ', ': ')` —
the serialization whose byte length drives the chunk packing (the chunk
*files* are written with compact separators, but the loop's size accounting
uses this default form). -/
def dumps : Json → String
  | .null => "null"
  | .bool true => "true"
  | .bool false => "false"
  | .num n => toString n
  | .str s => dumpsStr s
  | .arr xs => "[" ++ dumpsList xs ++ "]"
  | .obj kvs => "\x7b" ++ dumpsObj kvs ++ "\x7d"

def dumpsList : List Json → String
  | [] => ""
  | [x] => dumps x
  | x :: xs => dumps x ++ ", " ++ dumpsList xs

def dumpsObj : List (String × Json) → String
  | [] => ""
  | [(k, v)] => dumpsStr k ++ ": " ++ dumps v
  | (k, v) :: t => dumpsStr k ++ ": " ++ dumps v ++ ", " ++ dumpsObj t

end

/-- `len(json.dumps(conv).encode('utf-8'))`: with `ensure_ascii` the output
is pure ASCII, so the byte length is the character length. -/
def convSize (j : Json) : Nat := (dumps j).data.length

/-- `MAX_CHUNK_SIZE = 45 * 1024 * 1024`. -/
def MAX_CHUNK_SIZE : Nat := 45 * 1024 * 1024

/-- The greedy bin-packing loop of `split_conversations`, with the
serialized-size computation abstracted as the parameter `size` (the tool
instantiates it with `convSize`).  State: the chunks already closed, the
current chunk, and the running total `current_size`. -/
def packChunksGo {α : Type} (size : α → Nat) : List α → List (List α) → List α → Nat → List (List α)
  | [], acc, cur, _ => if cur.isEmpty then acc else acc ++ [cur]
  | x :: xs, acc, cur, cs =>
    if MAX_CHUNK_SIZE < cs + size x ∧ ¬ cur.isEmpty then
      packChunksGo size xs (acc ++ [cur]) [x] (size x)
    else
      packChunksGo size xs acc (cur ++ [x]) (cs + size x)

/-- The packing loop from its initial state. -/
def packChunks {α : Type} (size : α → Nat) (items : List α) : List (List α) :=
  packChunksGo size items [] [] 0

/-- The sort key `x.get('created_at', '')` on a raw record.  (A non-string
`created_at` value would raise in Python's sort; the data's timestamps are
strings, and no claim exercises other types.) -/
def convCreatedAt (j : Json) : String :=
  match j with
  | .obj kvs =>
    match lookupField kvs "created_at" with
    | some (.str s) => s
    | _ => ""
  | _ => ""

/-- Stable descending insertion: `x` goes in front of the first element
whose key is at most `x`'s, so among equal keys the earlier-inserted (= later
in the original list, under the fold below) element ends up later. -/
def insertDescBy {α : Type} (key : α → String) (x : α) : List α → List α
  | [] => [x]
  | y :: ys => if key y ≤ key x then x :: y :: ys else y :: insertDescBy key x ys

/-- `list.sort(key=..., reverse=True)`: a stable sort, descending by a
string key (Python compares strings lexicographically by code point).  A
stable sort's output is determined by key order plus input order, so this
stable insertion sort is an exact model of Python's sort. -/
def sortDescBy {α : Type} (key : α → String) : List α → List α
  | [] => []
  | x :: xs => insertDescBy key x (sortDescBy key xs)

/-- The Partitioner pipeline up to the chunk list: load all files into one
flat sequence (no dedup), sort descending by `created_at`, bin-pack. -/
def splitConversations (files : List (Option String)) : List (List Json) :=
  packChunks convSize (sortDescBy convCreatedAt (splitLoadFiles files))

/-- Sum of serialized sizes of a chunk. -/
def sumSizes {α : Type} (size : α → Nat) (c : List α) : Nat := (c.map size).sum

/-- Every element of the chunk after the first fits: cumulative size so far
plus the element stays within the threshold.  `s` is the size already in the
chunk before the listed elements. -/
def fitsFrom {α : Type} (size : α → Nat) : Nat → List α → Prop
  | _, [] => True
  | s, y :: ys => s + size y ≤ MAX_CHUNK_SIZE ∧ fitsFrom size (s + size y) ys

/-- A chunk respects the threshold at every element except possibly its
first (an oversized first element is allowed and sits alone). -/
def chunkFits {α : Type} (size : α → Nat) : List α → Prop
  | [] => True
  | y :: ys => fitsFrom size (size y) ys

/-- At every boundary between consecutive chunks, adding the next chunk's
first element to the earlier chunk would have exceeded the threshold — the
split happened exactly because of an overflow. -/
def boundariesOk {α : Type} (size : α → Nat) : List (List α) → Prop
  | [] => True
  | [_] => True
  | c :: c' :: rest =>
    (∀ x, c'.head? = some x → MAX_CHUNK_SIZE < sumSizes size c + size x)
      ∧ boundariesOk size (c' :: rest)

/-- Python truthiness of a JSON value (`if msg['content']:` etc.). -/
def pyTruthy : Json → Bool
  | .null => false
  | .bool b => b
  | .num n => n ≠ 0
  | .str s => s ≠ ""
  | .arr xs => ¬ xs.isEmpty
  | .obj kvs => ¬ kvs.isEmpty

mutual

/-- Python `repr` of a JSON value, as `str()` of a container falls back to
it (model: strings are quoted with single quotes, without Python's escaping
of quotes inside — no claim exercises that corner). -/
def pyRepr : Json → String
  | .null => "None"
  | .bool true => "True"
  | .bool false => "False"
  | .num n => toString n
  | .str s => "'" ++ s ++ "'"
  | .arr xs => "[" ++ pyReprList xs ++ "]"
  | .obj kvs => "\x7b" ++ pyReprObj kvs ++ "\x7d"

def pyReprList : List Json → String
  | [] => ""
  | [x] => pyRepr x
  | x :: xs => pyRepr x ++ ", " ++ pyReprList xs

def pyReprObj : List (String × Json) → String
  | [] => ""
  | [(k, v)] => "'" ++ k ++ "': " ++ pyRepr v
  | (k, v) :: t => "'" ++ k ++ "': " ++ pyRepr v ++ ", " ++ pyReprObj t

end

/-- Python `str(v)` as an f-string interpolates it. -/
def pyStrOf : Json → String
  | .str s => s
  | other => pyRepr other

/-- One chat message as the query layer reads it.  Fields the code accesses
with `.get` are `Option`s (`none` is an absent key); `content` stays a raw
JSON value because the code inspects its runtime type. -/
structure Message where
  uuid : Option String
  sender : Option String
  created_at : Option String
  text : Option String
  content : Option Json
  attachments : Option (List Json)
  files : Option (List Json)

/-- One conversation as the query layer reads it. -/
structure Conversation where
  uuid : Option String
  name : Option String
  summary : Option String
  created_at : Option String
  updated_at : Option String
  chat_messages : Option (List Message)

/-- One entry of the `/api/conversations` response. -/
structure ListEntry where
  uuid : String
  name : String
  summary : String
  created_at : String
  updated_at : String
  message_count : Nat
deriving DecidableEq

/-- One entry of the `/api/search` response. -/
structure SearchResult where
  uuid : String
  name : String
  summary : String
  created_at : String
  match_type : String
deriving DecidableEq

/-- One message of the `/api/conversation` response. -/
structure MessageView where
  uuid : String
  sender : String
  created_at : String
  content : String
  attachments : List Json
  files : List Json

/-- The `/api/conversation` response body. -/
structure ConvView where
  uuid : String
  name : String
  summary : String
  created_at : String
  updated_at : String
  messages : List MessageView

/-- The `if 'text' in msg and msg['text']:` part of
`format_message_content`: the flat `text` field contributes itself when
present and truthy (nonempty). -/
def msgTextParts (m : Message) : List String :=
  match m.text with
  | some t => if t = "" then [] else [t]
  | none => []

/-- One item of the `content` iteration.  `some none` is an item that
appends nothing (a non-dict, non-string item, or a dict whose `type`
matches no branch); the outer `none` is a `TypeError` raised later by
`'\n'.join` when a `text` block carries a non-string value. -/
def contentItemPart (item : Json) : Option (Option String) :=
  match item with
  | .obj kvs =>
    match lookupField kvs "type" with
    | some (.str "text") =>
      match lookupField kvs "text" with
      | none => some (some "")
      | some (.str t) => some (some t)
      | some _ => none
    | some (.str "tool_use") =>
      some (some ("\n[Tool: " ++ pyStrOf ((lookupField kvs "name").getD (.str "unknown")) ++ "]\n"))
    | some (.str "tool_result") =>
      some (some ("\n[Tool Result]\n" ++ pyStrOf ((lookupField kvs "content").getD (.str ""))))
    | _ => some none
  | .str s => some (some s)
  | _ => some none

/-- `for item in msg['content']`: iterating a string yields its characters
(each a one-character string, appended as is), iterating a list yields its
items, iterating a dict yields its keys (strings, appended as is);
iterating a number or boolean raises `TypeError`. -/
def contentParts (c : Json) : Option (List String) :=
  match c with
  | .str s => some (s.data.map (fun ch => String.mk [ch]))
  | .arr xs => (xs.mapM contentItemPart).map List.reduceOption
  | .obj kvs => some (kvs.map (fun p => p.1))
  | .null => none
  | .bool _ => none
  | .num _ => none

/-- Newline join, `'\n'.join(content_parts)`. -/
def joinNL : List String → String
  | [] => ""
  | [s] => s
  | s :: rest => s ++ "\n" ++ joinNL rest

/-- `server.py::format_message_content`: the flat `text` field followed by
the flattened `content` blocks, newline-joined. -/
def formatMessageContent (m : Message) : Option String :=
  match m.content with
  | some c =>
    if pyTruthy c then (contentParts c).map (fun ps => joinNL (msgTextParts m ++ ps))
    else some (joinNL (msgTextParts m))
  | none => some (joinNL (msgTextParts m))

/-- The list projection of one stored conversation
(`get_conversation_list`'s loop body). -/
def listEntryOf (u : String) (c : Conversation) : ListEntry :=
  { uuid := u
    name := c.name.getD "Untitled"
    summary := c.summary.getD ""
    created_at := c.created_at.getD ""
    updated_at := c.updated_at.getD ""
    message_count := (c.chat_messages.getD []).length }

/-- `server.py::get_conversation_list` over the store's entries. -/
def getConversationList (st : List (String × Conversation)) : List ListEntry :=
  sortDescBy (fun e => e.created_at) (st.map (fun p => listEntryOf p.1 p.2))

/-- Store lookup by uuid for the query layer (`convs.get(uuid)`). -/
def lookupConv : List (String × Conversation) → String → Option Conversation
  | [], _ => none
  | (k, v) :: t, key => if k = key then some v else lookupConv t key

/-- One message of the fetch-one response; `none` propagates a
`format_message_content` error. -/
def messageView (m : Message) : Option MessageView :=
  (formatMessageContent m).map (fun content =>
    { uuid := m.uuid.getD ""
      sender := m.sender.getD "unknown"
      created_at := m.created_at.getD ""
      content := content
      attachments := m.attachments.getD []
      files := m.files.getD [] })

/-- The fetch-one response body for one conversation. -/
def convView (c : Conversation) : Option ConvView :=
  ((c.chat_messages.getD []).mapM messageView).map (fun msgs =>
    { uuid := c.uuid.getD ""
      name := c.name.getD "Untitled"
      summary := c.summary.getD ""
      created_at := c.created_at.getD ""
      updated_at := c.updated_at.getD ""
      messages := msgs })

/-- `serve_conversation`: outer `none` is the 404 branch; an inner `none`
is a formatting `TypeError`. -/
def serveConversation (st : List (String × Conversation)) (u : String) : Option (Option ConvView) :=
  (lookupConv st u).map convView

/-- The name/summary phase of the search loop, on the lowered query. -/
def titleSummaryMatch (ql : String) (c : Conversation) : Bool :=
  strContainsSub (lowerStr (c.name.getD "")) ql
    || strContainsSub (lowerStr (c.summary.getD "")) ql

/-- The message phase of the search loop: scan `chat_messages` in order,
lowering each message's raw `text` field (absent treated as empty), and
stop at the first substring match. -/
def msgTextMatch (ql : String) : List Message → Bool
  | [] => false
  | m :: ms =>
    if strContainsSub (lowerStr (m.text.getD "")) ql then true else msgTextMatch ql ms

/-- A search hit for one conversation with the given `match_type`. -/
def searchResultOf (u : String) (c : Conversation) (mt : String) : SearchResult :=
  { uuid := u
    name := c.name.getD "Untitled"
    summary := c.summary.getD ""
    created_at := c.created_at.getD ""
    match_type := mt }

/-- The search loop's body for one store entry: name/summary first
(`match_type` "title/summary", then `continue`), else the message scan
(`match_type` "message", `break` at the first hit), else no result. -/
def searchConv (ql : String) (u : String) (c : Conversation) : Option SearchResult :=
  if titleSummaryMatch ql c then some (searchResultOf u c "title/summary")
  else if msgTextMatch ql (c.chat_messages.getD []) then some (searchResultOf u c "message")
  else none

/-- All hits of the search loop, in store order. -/
def searchMatches (q : String) (st : List (String × Conversation)) : List SearchResult :=
  st.filterMap (fun p => searchConv (lowerStr q) p.1 p.2)

/-- `serve_search`: empty query short-circuits to `[]`; otherwise collect
hits, sort descending by `created_at`, and truncate to the first 100. -/
def serveSearch (q : String) (st : List (String × Conversation)) : List SearchResult :=
  if q = "" then []
  else (sortDescBy (fun r => r.created_at) (searchMatches q st)).take 100

/-! Concrete inputs used by the claim theorems below. -/

/-- The spec's salvage scenario: an array cut off mid-second-object. -/
def c5Input : String := "[\x7b\"uuid\":\"a\",\"name\":\"x\"\x7d,\x7b\"uuid\":\"b\",\"name\":\"y\""

/-- A truncated array preceded by `\x0b`: Python's `strip()` removes it,
the JSON grammar rejects it as whitespace. -/
def c7Input : String := "\x0b[\x7b\"uuid\":\"a\"\x7d,\x7b\"uuid\":\"b\""

/-- A truncated array with no surrounding whitespace. -/
def c7WitInput : String := "[\x7b\"uuid\":\"a\"\x7d,\x7b\"uu"

/-- One source file whose parsed array is empty, so the built store is
empty (falsy) and the cache is never considered warm. -/
def c2Files : List (Option String) := [some "[]"]

/-- One source file holding one conversation with a uuid. -/
def c2WitFiles : List (Option String) := [some "[\x7b\"uuid\":\"a\"\x7d]"]

/-- The store `c2WitFiles` loads into. -/
def c2WitStore : Store := [(JKey.str "a", Json.obj [("uuid", Json.str "a")])]

/-- A message whose raw `text` field is absent but whose content blocks
flatten to "hello". -/
def c1Msg : Message :=
  { uuid := none, sender := none, created_at := none, text := none
    content := some (Json.arr [Json.obj [("type", Json.str "text"), ("text", Json.str "hello")]])
    attachments := none, files := none }

/-- A conversation whose name and summary do not contain "hello" but whose
only message's flattened content does. -/
def c1Conv : Conversation :=
  { uuid := some "c1", name := some "n", summary := none
    created_at := some "2024-01-01", updated_at := none
    chat_messages := some [c1Msg] }

/-- A message whose content payload is the plain string "ab". -/
def c10Msg : Message :=
  { uuid := none, sender := none, created_at := none, text := none
    content := some (Json.str "ab"), attachments := none, files := none }

/-- Three loaded records: two share uuid "a" (differing names), one lacks a
uuid. -/
def c3Recs : List Json :=
  [Json.obj [("uuid", Json.str "a"), ("name", Json.str "x")],
   Json.obj [("name", Json.str "nouuid")],
   Json.obj [("uuid", Json.str "a"), ("name", Json.str "y")]]

/-- The store `c3Recs` indexes into: only the later "a" record. -/
def c3Store : Store :=
  [(JKey.str "a", Json.obj [("uuid", Json.str "a"), ("name", Json.str "y")])]

/-- A stored conversation whose `name` field is present but empty. -/
def c8Conv : Conversation :=
  { uuid := some "u8", name := some "", summary := none
    created_at := some "2024-01-01", updated_at := none, chat_messages := some [] }

/-! Sanity checks of the embedding on concrete inputs. -/

example : parseJson "[]" = some (Json.arr []) := rfl
example : parseJson " [1, -2] " = some (Json.arr [Json.num 1, Json.num (-2)]) := rfl
example : parseJson "\x7b\"a\": [true, null], \"a\": \"x\"\x7d"
    = some (Json.obj [("a", Json.str "x")]) := rfl
example : parseJson "[1" = none := rfl
example : parseJson "[1] 2" = none := rfl
example : parseJson "\x0b[1]" = none := rfl
example : pyStrip "\x0b [1] \n" = "[1]" := rfl
example : pyStrip "\x1c  [1] " = "[1]" := rfl
example : pyStrip "\x1c[1]" = "[1]" := rfl
example : parseJson "\x1c[1]" = none := rfl
example :
    serverParseFile "\x1c[\x7b\"uuid\":\"a\"\x7d,\x7b\"uuid\":\"b\""
      = [Json.obj [("uuid", Json.str "a")]] := rfl
example : splitParseFile "\x1c[\x7b\"uuid\":\"a\"\x7d,\x7b\"uuid\":\"b\"" = [] := rfl
example : strRfind "[\x7ba\x7d,\x7db" "\x7d," = some 3 := rfl
example : strContainsSub "hello world" "lo w" = true := rfl
example : strContainsSub "hello" "x" = false := rfl
example :
    serverParseFile "[\x7b\"uuid\":\"a\"\x7d,\x7b\"uuid\":\"b\"\x7d]"
      = [Json.obj [("uuid", Json.str "a")], Json.obj [("uuid", Json.str "b")]] := rfl
example : serverParseFile "\x7b\"uuid\":\"a\"\x7d" = [Json.obj [("uuid", Json.str "a")]] := rfl
example : loadConversations [some "[]", none] [] = some ([], 1) := rfl
example : dumps (Json.obj [("a", Json.arr [Json.num 1, Json.str "x\n"])])
    = "\x7b\"a\": [1, \"x\\n\"]\x7d" := rfl
example : packChunks (fun n => n) [3, 4, 5] = [[3, 4, 5]] := rfl
example :
    formatMessageContent
      { uuid := none, sender := none, created_at := none, text := none
        content := some (Json.arr
          [Json.obj [("type", Json.str "text"), ("text", Json.str "hi")],
           Json.obj [("type", Json.str "tool_use"), ("name", Json.str "bash")]])
        attachments := none, files := none }
      = some "hi\n\n[Tool: bash]\n" := rfl

/-! Shared helper lemmas. -/

/-- The message-scan loop is observably the list `any` of the per-message
text test: it stops at the first hit, and whether some hit exists is all
the result reveals. -/
theorem msgTextMatch_eq_any (ql : String) (ms : List Message) :
    msgTextMatch ql ms = ms.any (fun m => strContainsSub (lowerStr (m.text.getD "")) ql) := by
  induction ms with
  | nil => rfl
  | cons m t ih =>
    simp only [msgTextMatch, List.any_cons, ih]
    cases h : strContainsSub (lowerStr (m.text.getD "")) ql <;> simp [h]

/-- Inserting permutes to consing. -/
theorem insertDescBy_perm {α : Type} (key : α → String) (x : α) (l : List α) :
    (insertDescBy key x l).Perm (x :: l) := by
  induction l with
  | nil => exact List.Perm.refl _
  | cons y ys ih =>
    unfold insertDescBy
    by_cases h : key y ≤ key x
    · rw [if_pos h]
    · rw [if_neg h]
      exact (ih.cons y).trans (List.Perm.swap x y ys)

/-- The sort permutes its input. -/
theorem sortDescBy_perm {α : Type} (key : α → String) (l : List α) :
    (sortDescBy key l).Perm l := by
  induction l with
  | nil => exact List.Perm.refl _
  | cons x xs ih =>
    exact (insertDescBy_perm key x (sortDescBy key xs)).trans (ih.cons x)

/-- Inserting into a descending list keeps it descending. -/
theorem insertDescBy_pairwise {α : Type} (key : α → String) (x : α) (l : List α)
    (h : List.Pairwise (fun a b => key b ≤ key a) l) :
    List.Pairwise (fun a b => key b ≤ key a) (insertDescBy key x l) := by
  induction l with
  | nil => simp [insertDescBy]
  | cons y ys ih =>
    rw [List.pairwise_cons] at h
    unfold insertDescBy
    by_cases hc : key y ≤ key x
    · rw [if_pos hc]
      refine List.Pairwise.cons ?_ (List.Pairwise.cons h.1 h.2)
      intro b hb
      rcases List.mem_cons.mp hb with hb | hb
      · exact hb ▸ hc
      · exact le_trans (h.1 b hb) hc
    · rw [if_neg hc]
      refine List.Pairwise.cons ?_ (ih h.2)
      intro b hb
      rcases List.mem_cons.mp ((insertDescBy_perm key x ys).mem_iff.mp hb) with hb | hb
      · exact hb ▸ le_of_not_le hc
      · exact h.1 b hb

/-- The sort's output is non-increasing in the key. -/
theorem sortDescBy_pairwise {α : Type} (key : α → String) (l : List α) :
    List.Pairwise (fun a b => key b ≤ key a) (sortDescBy key l) := by
  induction l with
  | nil => simp [sortDescBy]
  | cons x xs ih => exact insertDescBy_pairwise key x _ ih

/-! ## C5 — the salvage heuristic on the spec's truncated input -/

/-- C5: on the truncated input `[{"uuid":"a","name":"x"},{"uuid":"b","name":"y"`
the loader's salvage recovers exactly the one complete record (uuid "a",
name "x") and drops the truncated second record: the stripped content
starts with `[`, the cut happens at the last occurrence of the
close-brace-comma pattern, a bracket is appended and the re-parse
succeeds. -/
theorem C5_salvage_truncated_array :
    serverParseFile c5Input = [Json.obj [("uuid", Json.str "a"), ("name", Json.str "x")]] := rfl

/-! ## C7 — do the two loading passes agree on every content? -/

/-- C7 counterexample: on content whose leading whitespace is `\x0b`
(stripped by Python's `strip()`, rejected by the JSON grammar), the server's
loader salvages one record while the Partitioner's loader, which cuts the
*unstripped* content, produces a fixed string that still starts with `\x0b`
and fails to re-parse, recovering nothing.  The two passes differ. -/
theorem C7_counterexample :
    serverParseFile c7Input = [Json.obj [("uuid", Json.str "a")]]
    ∧ splitParseFile c7Input = []
    ∧ serverParseFile c7Input ≠ splitParseFile c7Input := by
  refine ⟨rfl, rfl, fun h => ?_⟩
  have h2 : (Json.obj [("uuid", Json.str "a")] :: []) = ([] : List Json) := h
  exact List.cons_ne_nil _ _ h2

/-- C7 amended: for every input file content that carries no leading or
trailing whitespace (`content.strip()` is the identity on it), the server's
loading pass and the Partitioner's loading pass produce the same flat
record sequence. -/
theorem C7_loaders_agree_on_stripped (content : String)
    (h : pyStrip content = content) :
    serverParseFile content = splitParseFile content := by
  unfold serverParseFile splitParseFile
  rw [h]
  cases hp : parseJson content with
  | some j => cases j <;> rfl
  | none =>
    cases hr : strRfind content "\x7d," with
    | some i =>
      by_cases hb : strStartsWith content "[" = true
      · by_cases hi : 0 < i <;> simp [hb, hr, hi]
      · simp [hb, hr]
    | none =>
      by_cases hb : strStartsWith content "[" = true <;> simp [hb, hr]

/-- C7 witness: both loaders salvage the same record from a truncated,
surrounding-whitespace-free array. -/
theorem C7_witness : serverParseFile c7WitInput = splitParseFile c7WitInput :=
  C7_loaders_agree_on_stripped c7WitInput rfl

/-! ## C2 — is loading idempotent with no re-reads? -/

/-- C2 counterexample: a source file whose array is empty loads into an
empty (falsy) store, so the cache is never warm: the call performs one file
read, and so does every identical subsequent call — not the zero re-reads
the claim promises for calls after the first. -/
theorem C2_counterexample :
    loadConversations c2Files [] = some (([] : Store), 1)
    ∧ loadConversations c2Files [] ≠ some (([] : Store), 0) := by
  refine ⟨rfl, fun h => ?_⟩
  have h2 : (some (([] : Store), 1) : Option (Store × Nat)) = some (([] : Store), 0) := h
  injection h2 with h3
  injection h3 with h4 h5
  exact Nat.one_ne_zero h5

/-- C2 amended: a second call always returns the same store as the first
(so the list API, a function of the store, returns identical results), and
when the first build produced a *nonempty* store the second call is a pure
cache hit: it returns that store with zero file reads. -/
theorem C2_second_call_returns_same_store (files : List (Option String)) (st : Store) (n : Nat)
    (h : loadConversations files [] = some (st, n)) :
    (loadConversations files st).map Prod.fst = some st
    ∧ (st ≠ [] → loadConversations files st = some (st, 0)) := by
  by_cases hst : st = []
  · subst hst
    refine ⟨?_, fun hc => absurd rfl hc⟩
    rw [h]
    rfl
  · have hne : ¬ st.isEmpty = true := by simp [List.isEmpty_iff, hst]
    have hload : loadConversations files st = some (st, 0) := by
      unfold loadConversations
      rw [if_neg hne]
    exact ⟨by rw [hload]; rfl, fun _ => hload⟩

/-- C2 witness: at a file set whose first load yields a nonempty store. -/
theorem C2_witness :
    (loadConversations c2WitFiles c2WitStore).map Prod.fst = some c2WitStore
    ∧ (c2WitStore ≠ [] → loadConversations c2WitFiles c2WitStore = some (c2WitStore, 0)) :=
  C2_second_call_returns_same_store c2WitFiles c2WitStore 1 rfl

/-! ## C10 — a plain-string content payload is iterated character-wise -/

/-- C10: when a message's `content` payload is a plain nonempty string `s`,
`format_message_content` iterates `s` element-wise — each character becomes
its own part — and joins the parts (after any flat-text part) with
newlines, rather than using `s` verbatim. -/
theorem C10_string_content_iterates_chars (m : Message) (s : String)
    (h1 : m.content = some (Json.str s)) (h2 : s ≠ "") :
    formatMessageContent m
      = some (joinNL (msgTextParts m ++ s.data.map (fun ch => String.mk [ch]))) := by
  simp [formatMessageContent, h1, pyTruthy, contentParts, h2]

/-- C10 witness: the string payload "ab" flattens to "a\nb", not "ab". -/
theorem C10_witness : formatMessageContent c10Msg = some "a\nb" :=
  (C10_string_content_iterates_chars c10Msg "ab" rfl (by decide)).trans rfl

/-! ## C1 — what does the message phase of search match against? -/

/-- C1 counterexample: a conversation whose name and summary do not match
"hello" and whose only message *flattens* to "hello" (so the flattened
content contains the query) still produces no search hit, because the
message phase matches the raw `text` field, which is absent here —
refuting the claim that it matches the rendering flattening. -/
theorem C1_counterexample :
    formatMessageContent c1Msg = some "hello"
    ∧ strContainsSub (lowerStr "hello") "hello" = true
    ∧ titleSummaryMatch "hello" c1Conv = false
    ∧ searchConv "hello" "c1" c1Conv = none :=
  ⟨rfl, rfl, rfl, rfl⟩

/-- C1 amended: for a conversation whose name and summary do not match,
the search's message phase substring-matches the lowercased query against
each message's raw lowercased `text` field (absent treated as empty) — not
the rendered flattening — scanning in sequence order, stopping at the
first hit, which is reported with `match_type` "message". -/
theorem C1_message_phase_matches_text_field (ql u : String) (c : Conversation)
    (h : titleSummaryMatch ql c = false) :
    searchConv ql u c =
      if (c.chat_messages.getD []).any (fun m => strContainsSub (lowerStr (m.text.getD "")) ql)
      then some (searchResultOf u c "message")
      else none := by
  simp [searchConv, h, msgTextMatch_eq_any]

/-- C1 witness: at the query "zz" and the concrete conversation above. -/
theorem C1_witness :
    searchConv "zz" "u1" c1Conv =
      (if (c1Conv.chat_messages.getD []).any
            (fun m => strContainsSub (lowerStr (m.text.getD "")) "zz")
       then some (searchResultOf "u1" c1Conv "message")
       else none) :=
  C1_message_phase_matches_text_field "zz" "u1" c1Conv rfl

/-! ## C6 — list and search results sorted descending by created_at -/

/-- C6: every list-API result sequence and every search-API result
sequence is non-increasing in the raw `created_at` string (lexicographic
comparison of the stored strings, a missing `created_at` having been
projected to the empty string, which orders below every other string). -/
theorem C6_results_sorted_desc (st : List (String × Conversation)) :
    List.Pairwise (fun a b => b.created_at ≤ a.created_at) (getConversationList st)
    ∧ ∀ q, List.Pairwise (fun (a b : SearchResult) => b.created_at ≤ a.created_at)
        (serveSearch q st) := by
  constructor
  · exact sortDescBy_pairwise (fun (e : ListEntry) => e.created_at) _
  · intro q
    unfold serveSearch
    by_cases hq : q = ""
    · simp [hq]
    · rw [if_neg hq]
      exact List.Pairwise.sublist (List.take_sublist _ _)
        (sortDescBy_pairwise (fun (r : SearchResult) => r.created_at) _)

/-! ## C9 — the search cap of 100, applied after sorting -/

/-- C9: the search API returns at most 100 results, and the truncation is
applied after the descending sort: any collected match that is dropped has
a `created_at` at most that of every match that is kept. -/
theorem C9_search_capped_after_sorting (q : String) (st : List (String × Conversation)) :
    (serveSearch q st).length ≤ 100
    ∧ ∀ y ∈ searchMatches q st, y ∉ serveSearch q st →
        ∀ x ∈ serveSearch q st, y.created_at ≤ x.created_at := by
  by_cases hq : q = ""
  · constructor
    · simp [serveSearch, hq]
    · intro y _ hnot x hx
      simp [serveSearch, hq] at hx
  · have hserve : serveSearch q st
        = (sortDescBy (fun r => r.created_at) (searchMatches q st)).take 100 := by
      unfold serveSearch
      rw [if_neg hq]
    constructor
    · rw [hserve]
      exact List.length_take_le _ _
    · intro y hy hnot x hx
      have hyL : y ∈ sortDescBy (fun r => r.created_at) (searchMatches q st) :=
        (sortDescBy_perm (fun r => r.created_at) _).mem_iff.mpr hy
      have hsplit := List.take_append_drop 100
        (sortDescBy (fun r => r.created_at) (searchMatches q st))
      have hpw := sortDescBy_pairwise (fun r => r.created_at) (searchMatches q st)
      rw [← hsplit] at hyL hpw
      rw [List.pairwise_append] at hpw
      rcases List.mem_append.mp hyL with hyT | hyD
      · exact absurd (hserve ▸ hyT) hnot
      · exact hpw.2.2 x (hserve ▸ hx) y hyD

/-! ## C8 — list/fetch projection defaults -/

/-- C8 counterexample: a stored conversation whose `name` field is present
but *empty* is projected with name `""`, not `"Untitled"` — `.get('name',
'Untitled')` defaults only when the key is absent, refuting the
"absent/empty" claim. -/
theorem C8_counterexample :
    getConversationList [("u8", c8Conv)]
      = [{ uuid := "u8", name := "", summary := "", created_at := "2024-01-01",
           updated_at := "", message_count := 0 }]
    ∧ ("" : String) ≠ "Untitled" :=
  ⟨rfl, by decide⟩

/-- C8 amended: the list projection of every stored conversation reports
name `"Untitled"` exactly when the `name` field is *absent* (a present
empty name passes through as `""`), summary defaulting to `""`, and
`message_count` the length of the message sequence; the projection of every
store entry appears in the list response, and the fetch-one view applies
the same name/summary defaults. -/
theorem C8_projection_defaults (st : List (String × Conversation)) (u : String)
    (c : Conversation) (h : (u, c) ∈ st) :
    listEntryOf u c ∈ getConversationList st
    ∧ listEntryOf u c
        = { uuid := u
            name := c.name.getD "Untitled"
            summary := c.summary.getD ""
            created_at := c.created_at.getD ""
            updated_at := c.updated_at.getD ""
            message_count := (c.chat_messages.getD []).length }
    ∧ (∀ v, convView c = some v →
        v.name = c.name.getD "Untitled" ∧ v.summary = c.summary.getD "") := by
  refine ⟨?_, rfl, ?_⟩
  · have hm : listEntryOf u c ∈ st.map (fun p => listEntryOf p.1 p.2) :=
      List.mem_map.mpr ⟨(u, c), h, rfl⟩
    exact (sortDescBy_perm (fun e => e.created_at) _).mem_iff.mpr hm
  · intro v hv
    unfold convView at hv
    cases hmm : (c.chat_messages.getD []).mapM messageView with
    | none => rw [hmm] at hv; exact absurd hv (by simp)
    | some msgs =>
      rw [hmm] at hv
      have hv2 := Option.some.inj hv
      rw [← hv2]
      exact ⟨rfl, rfl⟩

/-- C8 witness: at the singleton store holding the empty-named
conversation. -/
theorem C8_witness :
    listEntryOf "u8" c8Conv ∈ getConversationList [("u8", c8Conv)]
    ∧ listEntryOf "u8" c8Conv
        = { uuid := "u8"
            name := c8Conv.name.getD "Untitled"
            summary := c8Conv.summary.getD ""
            created_at := c8Conv.created_at.getD ""
            updated_at := c8Conv.updated_at.getD ""
            message_count := (c8Conv.chat_messages.getD []).length }
    ∧ (∀ v, convView c8Conv = some v →
        v.name = c8Conv.name.getD "Untitled" ∧ v.summary = c8Conv.summary.getD "") :=
  C8_projection_defaults [("u8", c8Conv)] "u8" c8Conv (List.Mem.head _)

/-! ## C4 — the greedy bin-packing loop -/

/-- The loop emits every item, in order, across its chunks. -/
theorem packChunksGo_flatten {α : Type} (size : α → Nat) (items : List α) :
    ∀ (acc : List (List α)) (cur : List α) (cs : Nat),
    (packChunksGo size items acc cur cs).flatten = acc.flatten ++ cur ++ items := by
  induction items with
  | nil =>
    intro acc cur cs
    unfold packChunksGo
    by_cases hce : cur.isEmpty
    · have h0 : cur = [] := List.isEmpty_iff.mp hce
      simp [hce, h0]
    · simp [hce]
  | cons x xs ih =>
    intro acc cur cs
    unfold packChunksGo
    by_cases hcond : MAX_CHUNK_SIZE < cs + size x ∧ ¬ cur.isEmpty
    · rw [if_pos hcond, ih]
      simp
    · rw [if_neg hcond, ih]
      simp

/-- Every emitted chunk is nonempty (given nonempty chunks so far). -/
theorem packChunksGo_nonempty {α : Type} (size : α → Nat) (items : List α) :
    ∀ (acc : List (List α)) (cur : List α) (cs : Nat), (∀ c ∈ acc, c ≠ []) →
    ∀ c ∈ packChunksGo size items acc cur cs, c ≠ [] := by
  induction items with
  | nil =>
    intro acc cur cs hacc c hc
    unfold packChunksGo at hc
    by_cases hce : cur.isEmpty
    · rw [if_pos hce] at hc
      exact hacc c hc
    · rw [if_neg hce] at hc
      rcases List.mem_append.mp hc with h | h
      · exact hacc c h
      · rw [List.mem_singleton.mp h]
        exact fun hnil => hce (by rw [hnil]; rfl)
  | cons x xs ih =>
    intro acc cur cs hacc c hc
    unfold packChunksGo at hc
    by_cases hcond : MAX_CHUNK_SIZE < cs + size x ∧ ¬ cur.isEmpty
    · rw [if_pos hcond] at hc
      refine ih _ _ _ ?_ c hc
      intro c' hc'
      rcases List.mem_append.mp hc' with h | h
      · exact hacc c' h
      · rw [List.mem_singleton.mp h]
        exact fun hnil => hcond.2 (by rw [hnil]; rfl)
    · rw [if_neg hcond] at hc
      exact ih _ _ _ hacc c hc

/-- Appending an element that still fits keeps `fitsFrom`. -/
theorem fitsFrom_append {α : Type} (size : α → Nat) (x : α) :
    ∀ (ys : List α) (s : Nat), fitsFrom size s ys →
    s + sumSizes size ys + size x ≤ MAX_CHUNK_SIZE →
    fitsFrom size s (ys ++ [x]) := by
  intro ys
  induction ys with
  | nil =>
    intro s _ hb
    exact ⟨by simpa [sumSizes] using hb, trivial⟩
  | cons y t ih =>
    intro s hf hb
    obtain ⟨h1, h2⟩ := hf
    refine ⟨h1, ih (s + size y) h2 ?_⟩
    simp only [sumSizes, List.map_cons, List.sum_cons] at hb ⊢
    omega

/-- Appending an element that still fits keeps `chunkFits`. -/
theorem chunkFits_append {α : Type} (size : α → Nat) (cur : List α) (x : α)
    (hf : chunkFits size cur) (hb : sumSizes size cur + size x ≤ MAX_CHUNK_SIZE) :
    chunkFits size (cur ++ [x]) := by
  cases cur with
  | nil => exact trivial
  | cons y t =>
    refine fitsFrom_append size x t (size y) hf ?_
    simp only [sumSizes, List.map_cons, List.sum_cons] at hb ⊢
    omega

/-- Every element covered by `fitsFrom` fits the threshold on its own. -/
theorem fitsFrom_le {α : Type} (size : α → Nat) :
    ∀ (ys : List α) (s : Nat), fitsFrom size s ys →
    ∀ w ∈ ys, size w ≤ MAX_CHUNK_SIZE := by
  intro ys
  induction ys with
  | nil => intro s _ w hw; cases hw
  | cons y t ih =>
    intro s hf w hw
    obtain ⟨h1, h2⟩ := hf
    rcases List.mem_cons.mp hw with hw | hw
    · subst hw; omega
    · exact ih (s + size y) h2 w hw

/-- Every chunk the loop emits respects the threshold at each non-first
element. -/
theorem packChunksGo_fits {α : Type} (size : α → Nat) (items : List α) :
    ∀ (acc : List (List α)) (cur : List α) (cs : Nat),
    cs = sumSizes size cur → (∀ c ∈ acc, chunkFits size c) → chunkFits size cur →
    ∀ c ∈ packChunksGo size items acc cur cs, chunkFits size c := by
  induction items with
  | nil =>
    intro acc cur cs hcs hacc hcur c hc
    unfold packChunksGo at hc
    by_cases hce : cur.isEmpty
    · rw [if_pos hce] at hc
      exact hacc c hc
    · rw [if_neg hce] at hc
      rcases List.mem_append.mp hc with h | h
      · exact hacc c h
      · rw [List.mem_singleton.mp h]
        exact hcur
  | cons x xs ih =>
    intro acc cur cs hcs hacc hcur c hc
    unfold packChunksGo at hc
    by_cases hcond : MAX_CHUNK_SIZE < cs + size x ∧ ¬ cur.isEmpty
    · rw [if_pos hcond] at hc
      refine ih _ _ _ (by simp [sumSizes]) ?_ (by simp [chunkFits, fitsFrom]) c hc
      intro c' hc'
      rcases List.mem_append.mp hc' with h | h
      · exact hacc c' h
      · rw [List.mem_singleton.mp h]
        exact hcur
    · rw [if_neg hcond] at hc
      refine ih _ _ _ ?_ hacc ?_ c hc
      · simp only [sumSizes, List.map_append, List.sum_append, List.map_cons,
          List.sum_cons, List.map_nil, List.sum_nil, hcs]
        omega
      · by_cases hce : cur.isEmpty
        · rw [List.isEmpty_iff.mp hce]
          simp [chunkFits, fitsFrom]
        · have hnlt : ¬ MAX_CHUNK_SIZE < cs + size x := fun hlt => hcond ⟨hlt, hce⟩
          exact chunkFits_append size cur x hcur (by omega)

/-- Appending a chunk linked by an overflow to the last existing chunk
keeps the boundary property. -/
theorem boundariesOk_append {α : Type} (size : α → Nat) :
    ∀ (L : List (List α)) (c : List α), boundariesOk size L →
    (∀ l, L.getLast? = some l → ∀ y, c.head? = some y →
      MAX_CHUNK_SIZE < sumSizes size l + size y) →
    boundariesOk size (L ++ [c]) := by
  intro L
  induction L with
  | nil => intro c _ _; exact trivial
  | cons a t ih =>
    intro c hb hlink
    cases t with
    | nil =>
      refine ⟨fun x hx => hlink a rfl x hx, trivial⟩
    | cons b t' =>
      obtain ⟨h1, h2⟩ := hb
      refine ⟨h1, ih c h2 ?_⟩
      intro l hl y hy
      refine hlink l ?_ y hy
      rw [List.getLast?_cons_cons]
      exact hl

/-- Every boundary the loop creates is an overflow boundary. -/
theorem packChunksGo_boundaries {α : Type} (size : α → Nat) (items : List α) :
    ∀ (acc : List (List α)) (cur : List α) (cs : Nat),
    cs = sumSizes size cur →
    boundariesOk size acc →
    (∀ l, acc.getLast? = some l → ∀ y, cur.head? = some y →
      MAX_CHUNK_SIZE < sumSizes size l + size y) →
    (cur = [] → acc = []) →
    boundariesOk size (packChunksGo size items acc cur cs) := by
  induction items with
  | nil =>
    intro acc cur cs hcs hb hlink hemp
    unfold packChunksGo
    by_cases hce : cur.isEmpty
    · rw [if_pos hce]
      exact hb
    · rw [if_neg hce]
      exact boundariesOk_append size acc cur hb hlink
  | cons x xs ih =>
    intro acc cur cs hcs hb hlink hemp
    unfold packChunksGo
    by_cases hcond : MAX_CHUNK_SIZE < cs + size x ∧ ¬ cur.isEmpty
    · rw [if_pos hcond]
      refine ih _ _ _ (by simp [sumSizes]) (boundariesOk_append size acc cur hb hlink) ?_
        (fun h => absurd h (by simp))
      intro l hl y hy
      have hlast : (acc ++ [cur]).getLast? = some cur := by simp
      rw [hlast] at hl
      have hcur := Option.some.inj hl
      have hyx := Option.some.inj hy
      rw [← hcur, ← hyx, ← hcs]
      exact hcond.1
    · rw [if_neg hcond]
      refine ih _ _ _ ?_ hb ?_ (fun h => absurd h (by simp))
      · simp only [sumSizes, List.map_append, List.sum_append, List.map_cons,
          List.sum_cons, List.map_nil, List.sum_nil, hcs]
        omega
      · intro l hl y hy
        cases hcur : cur with
        | nil =>
          rw [hemp hcur] at hl
          exact absurd hl (by simp)
        | cons z zs =>
          rw [hcur] at hy
          have hyz := Option.some.inj hy
          refine hlink l hl y ?_
          rw [hcur, ← hyz]
          rfl

/-- An element alone too big for the threshold sits in a chunk by itself. -/
theorem chunkFits_oversized {α : Type} (size : α → Nat) :
    ∀ (c : List α), chunkFits size c → ∀ x ∈ c, MAX_CHUNK_SIZE < size x → c = [x] := by
  intro c
  match c with
  | [] => intro _ x hx; cases hx
  | [y] => intro _ x hx _; rw [List.mem_singleton.mp hx]
  | y :: z :: zs =>
    intro hf x hx hbig
    exfalso
    have hff : size y + size z ≤ MAX_CHUNK_SIZE ∧ fitsFrom size (size y + size z) zs := hf
    have hall := fitsFrom_le size (z :: zs) (size y) hf
    rcases List.mem_cons.mp hx with hxy | hxm
    · subst hxy
      have h1 := hff.1
      omega
    · have := hall x hxm
      omega

/-- C4: the partitioner's greedy bin-packing, for any serialized-size
function (the tool instantiates `convSize`): the chunks concatenate back to
the input in order; every chunk is nonempty; within a chunk, every element
after the first still fits the running total (a new chunk is started *only*
on overflow of a nonempty chunk, with the overflowing item opening the new
chunk); at every chunk boundary the next chunk's first element would have
overflowed the previous chunk (a new chunk is started *exactly* then); and
an item alone exceeding the threshold occupies a chunk by itself — the loop
being a total structural recursion, no input causes an infinite split. -/
theorem C4_greedy_packing {α : Type} (size : α → Nat) (items : List α) :
    (packChunks size items).flatten = items
    ∧ (∀ c ∈ packChunks size items, c ≠ [])
    ∧ (∀ c ∈ packChunks size items, chunkFits size c)
    ∧ boundariesOk size (packChunks size items)
    ∧ (∀ c ∈ packChunks size items, ∀ x ∈ c, MAX_CHUNK_SIZE < size x → c = [x]) := by
  have hfl : (packChunks size items).flatten = items := by
    unfold packChunks
    rw [packChunksGo_flatten]
    simp
  have hne : ∀ c ∈ packChunks size items, c ≠ [] :=
    packChunksGo_nonempty size items [] [] 0 (by intro c hc; cases hc)
  have hfit : ∀ c ∈ packChunks size items, chunkFits size c :=
    packChunksGo_fits size items [] [] 0 rfl (by intro c hc; cases hc)
      (by simp [chunkFits])
  have hbd : boundariesOk size (packChunks size items) :=
    packChunksGo_boundaries size items [] [] 0 rfl (by simp [boundariesOk])
      (by intro l hl; exact absurd hl (by simp)) (fun _ => rfl)
  exact ⟨hfl, hne, hfit, hbd,
    fun c hc x hx hbig => chunkFits_oversized size c (hfit c hc) x hx hbig⟩

/-! ## C3 — last-loaded record wins in the store; the Partitioner keeps
duplicates -/

/-- Dict lookup after dict insertion. -/
theorem lookupKV_insertKV (st : Store) (k : JKey) (v : Json) (u : JKey) :
    lookupKV (insertKV st k v) u = if k = u then some v else lookupKV st u := by
  induction st with
  | nil =>
    by_cases hu : k = u <;> simp [insertKV, lookupKV, hu]
  | cons p t ih =>
    obtain ⟨k', v'⟩ := p
    unfold insertKV
    by_cases hk : k' = k
    · subst hk
      by_cases hu : k' = u <;> simp [lookupKV, hu]
    · rw [if_neg hk]
      by_cases hu : k' = u
      · subst hu
        have hk2 : ¬ (k = k') := fun hh => hk hh.symm
        simp [lookupKV, hk2]
      · simp [lookupKV, hu, ih]

/-- What one successful step of the index loop did: either the record's
uuid was present and hashable and the record was inserted under it, or the
record carried no uuid (as a dict key, or harmlessly probed on a non-dict)
and the store is unchanged. -/
theorem buildIndexStep_some (st : Store) (r : Json) (st' : Store)
    (h : buildIndexStep st r = some st') :
    (∃ u, uuidKeyOf r = some u ∧ st' = insertKV st u r)
    ∨ (uuidKeyOf r = none ∧ st' = st) := by
  cases r with
  | obj kvs =>
    simp only [buildIndexStep] at h
    split at h
    next v hv =>
      split at h
      next k hk =>
        exact Or.inl ⟨k, by simp [uuidKeyOf, uuidOf, hv, hk], (Option.some.inj h).symm⟩
      next hk => exact absurd h (by simp)
    next hv =>
      exact Or.inr ⟨by simp [uuidKeyOf, uuidOf, hv], (Option.some.inj h).symm⟩
  | str s =>
    simp only [buildIndexStep] at h
    split at h
    · exact absurd h (by simp)
    · exact Or.inr ⟨rfl, (Option.some.inj h).symm⟩
  | arr xs =>
    simp only [buildIndexStep] at h
    split at h
    · exact absurd h (by simp)
    · exact Or.inr ⟨rfl, (Option.some.inj h).symm⟩
  | null => simp [buildIndexStep] at h
  | bool b => simp [buildIndexStep] at h
  | num n => simp [buildIndexStep] at h

/-- The index loop's lookup semantics: the value at `u` is the last loaded
record with uuid `u`, falling back to whatever the starting store held. -/
theorem buildIndex_lookup (recs : List Json) :
    ∀ (st₀ stF : Store), buildIndex recs st₀ = some stF →
    ∀ u, lookupKV stF u =
      (match lastWith u recs with
       | some r => some r
       | none => lookupKV st₀ u) := by
  induction recs with
  | nil =>
    intro st₀ stF h u
    have hst : st₀ = stF := Option.some.inj h
    rw [← hst]
    rfl
  | cons r rs ih =>
    intro st₀ stF h u
    unfold buildIndex at h
    cases hstep : buildIndexStep st₀ r with
    | none => rw [hstep] at h; exact absurd h (by simp)
    | some st₁ =>
      rw [hstep] at h
      have ihh := ih st₁ stF h u
      rcases buildIndexStep_some st₀ r st₁ hstep with ⟨u', hu', hins⟩ | ⟨hnone, hst⟩
      · rw [ihh, hins]
        cases hl : lastWith u rs with
        | some x => simp [lastWith, hl]
        | none =>
          simp only [lastWith, hl, lookupKV_insertKV]
          by_cases huu : u' = u
          · subst huu
            simp [hu']
          · simp [huu, hu']
      · rw [ihh, hst]
        cases hl : lastWith u rs with
        | some x => simp [lastWith, hl]
        | none => simp [lastWith, hl, hnone]

/-- Membership after dict insertion. -/
theorem mem_insertKV (st : Store) (k : JKey) (v : Json) (e : JKey × Json)
    (h : e ∈ insertKV st k v) : e = (k, v) ∨ e ∈ st := by
  induction st with
  | nil => exact Or.inl (List.mem_singleton.mp (by simpa [insertKV] using h))
  | cons p t ih =>
    obtain ⟨k', v'⟩ := p
    unfold insertKV at h
    by_cases hk : k' = k
    · rw [if_pos hk] at h
      rcases List.mem_cons.mp h with h | h
      · exact Or.inl h
      · exact Or.inr (List.mem_cons.mpr (Or.inr h))
    · rw [if_neg hk] at h
      rcases List.mem_cons.mp h with h | h
      · exact Or.inr (List.mem_cons.mpr (Or.inl h))
      · rcases ih h with h2 | h2
        · exact Or.inl h2
        · exact Or.inr (List.mem_cons.mpr (Or.inr h2))

/-- Every store entry built by the loop is keyed by its record's uuid (so
records lacking a uuid are not in the store at all). -/
theorem buildIndex_entries (recs : List Json) :
    ∀ (st₀ stF : Store), buildIndex recs st₀ = some stF →
    (∀ e ∈ st₀, uuidKeyOf e.2 = some e.1) →
    ∀ e ∈ stF, uuidKeyOf e.2 = some e.1 := by
  induction recs with
  | nil =>
    intro st₀ stF h h0
    have hst : st₀ = stF := Option.some.inj h
    rw [← hst]
    exact h0
  | cons r rs ih =>
    intro st₀ stF h h0
    unfold buildIndex at h
    cases hstep : buildIndexStep st₀ r with
    | none => rw [hstep] at h; exact absurd h (by simp)
    | some st₁ =>
      rw [hstep] at h
      refine ih st₁ stF h ?_
      rcases buildIndexStep_some st₀ r st₁ hstep with ⟨u', hu', hins⟩ | ⟨_, hst⟩
      · rw [hins]
        intro e he
        rcases mem_insertKV st₀ u' r e he with h2 | h2
        · rw [h2]
          exact hu'
        · exact h0 e h2
      · rw [hst]
        exact h0

/-- C3: for records sharing a uuid, the store keeps exactly the
later-loaded one (`lookupKV` returns the *last* record with each uuid, and
every store entry is keyed by its record's uuid, so earlier duplicates and
uuid-less records are absent); a dict record lacking the uuid field is
skipped with no error; and the Partitioner's pipeline — which never keys by
uuid — carries every duplicate through sorting and packing (the count of
records with any given uuid is preserved). -/
theorem C3_last_loaded_wins (recs : List Json) (stF : Store)
    (h : buildIndex recs [] = some stF) :
    (∀ u, lookupKV stF u = lastWith u recs)
    ∧ (∀ e ∈ stF, uuidKeyOf e.2 = some e.1)
    ∧ (∀ (st : Store) (kvs : List (String × Json)),
        lookupField kvs "uuid" = none → buildIndexStep st (Json.obj kvs) = some st)
    ∧ (∀ (size : Json → Nat) (u : JKey),
        List.countP (fun r => decide (uuidKeyOf r = some u))
            (packChunks size (sortDescBy convCreatedAt recs)).flatten
          = List.countP (fun r => decide (uuidKeyOf r = some u)) recs) := by
  refine ⟨?_, buildIndex_entries recs [] stF h (by intro e he; cases he), ?_, ?_⟩
  · intro u
    rw [buildIndex_lookup recs [] stF h u]
    cases hl : lastWith u recs <;> simp [hl, lookupKV]
  · intro st kvs hk
    simp [buildIndexStep, hk]
  · intro size u
    have hfl : (packChunks size (sortDescBy convCreatedAt recs)).flatten
        = sortDescBy convCreatedAt recs := by
      unfold packChunks
      rw [packChunksGo_flatten]
      simp
    rw [hfl]
    exact (sortDescBy_perm convCreatedAt recs).countP_eq _

/-- C3 witness: two records with uuid "a" and one without load into the
singleton store holding the later "a" record. -/
theorem C3_witness :
    (∀ u, lookupKV c3Store u = lastWith u c3Recs)
    ∧ (∀ e ∈ c3Store, uuidKeyOf e.2 = some e.1)
    ∧ (∀ (st : Store) (kvs : List (String × Json)),
        lookupField kvs "uuid" = none → buildIndexStep st (Json.obj kvs) = some st)
    ∧ (∀ (size : Json → Nat) (u : JKey),
        List.countP (fun r => decide (uuidKeyOf r = some u))
            (packChunks size (sortDescBy convCreatedAt c3Recs)).flatten
          = List.countP (fun r => decide (uuidKeyOf r = some u)) c3Recs) :=
  C3_last_loaded_wins c3Recs c3Store rfl
